import Mathlib

/-!
Shallow embedding of `src/tools/seed_issues_from_excel.py`, a tool that seeds
GitHub issues from a spreadsheet idempotently.  The remote tracker is modelled
by an oracle `Env` assigning a deterministic outcome to every API endpoint the
tool calls; each modelled function additionally returns the trace of API calls
it performed.  HTTP failures (what `requests.raise_for_status` raises) are
modelled by `HErr`, carrying the status code and the exception message.
-/

namespace SeedIssues

/-- An HTTP error as raised by `raise_for_status`: a status code and the
exception's message (what Python's `str(e)` would produce). -/
structure HErr where
  code : Nat
  msg : String
deriving Repr, DecidableEq

/-- One entry of the issue listing returned by `GET /repos/{repo}/issues`:
whether the JSON object has a `pull_request` key, the set of label names,
and its `html_url`. -/
structure Item where
  isPR : Bool
  labels : List String
  html_url : String
deriving Repr, DecidableEq

/-- An API call made by the tool, as recorded in the trace. -/
inductive Call where
  | getLabel (name : String)
  | createLabel (name : String) (color : String) (desc : Option String)
  | listIssues (label : String) (page : Nat)
  | createIssue (title : String) (body : String) (labels : List String)
deriving Repr, DecidableEq

/-- Whether a call is the issue-creation call `POST /repos/{repo}/issues`. -/
def Call.isCreateIssue : Call → Bool
  | .createIssue _ _ _ => true
  | _ => false

/-- Whether a call mutates tracker state (creates a label or an issue). -/
def Call.isMutating : Call → Bool
  | .createLabel _ _ _ => true
  | .createIssue _ _ _ => true
  | _ => false

/-- Whether a call is a paged issue listing request. -/
def Call.isListIssues : Call → Bool
  | .listIssues _ _ => true
  | _ => false

/-- The deterministic remote-tracker oracle: the outcome of each endpoint the
tool uses, keyed by the request parameters.  `.error e` is the condition under
which `gh` (after its internal retry) raises `requests.HTTPError e`. -/
structure Env where
  labelGet : String → Except HErr Unit
  labelPost : String → String → Option String → Except HErr Unit
  issuesList : String → Nat → Except HErr (List Item)
  issuePost : String → String → List String → Except HErr String

/-- The `description` field of the POST payload of `ensure_label`: included
only when the `desc` argument is truthy (not None and not empty). -/
def descPayload (desc : Option String) : Option String :=
  match desc with
  | some s => if s = "" then none else some s
  | none => none

/-- `ensure_label(headers, repo, name, color, desc)`: GET the label; on a 404
HTTPError, POST it; any other HTTPError re-raises.  Returns the outcome and
the calls made. -/
def ensure_label (env : Env) (name color : String) (desc : Option String) :
    Except HErr Unit × List Call :=
  match env.labelGet name with
  | .ok _ => (.ok (), [.getLabel name])
  | .error e =>
    if e.code = 404 then
      (env.labelPost name color (descPayload desc),
       [.getLabel name, .createLabel name color (descPayload desc)])
    else (.error e, [.getLabel name])

/-- `per_page = 50` in `find_issue_by_seed`. -/
def per_page : Nat := 50

/-- The client-side filter applied to each listed entry: it must not be a pull
request and its label names must contain the seed label. -/
def isMatch (label : String) (it : Item) : Bool :=
  !it.isPR && it.labels.contains label

/-- The `while True` paging loop of `find_issue_by_seed`, with explicit fuel:
`(none, tr)` means the fuel ran out before the loop returned.  Each iteration
lists one page; an empty page or (after scanning) a short page returns
not-found, a matching true issue returns found, a full page without a match
advances to the next page. -/
def findLoop (env : Env) (label : String) :
    Nat → Nat → Option (Except HErr (Option Item)) × List Call
  | _, 0 => (none, [])
  | page, fuel+1 =>
    match env.issuesList label page with
    | .error e => (some (.error e), [.listIssues label page])
    | .ok items =>
      if items.isEmpty then (some (.ok none), [.listIssues label page])
      else
        match items.find? (isMatch label) with
        | some it => (some (.ok (some it)), [.listIssues label page])
        | none =>
          if items.length < per_page then (some (.ok none), [.listIssues label page])
          else
            let rest := findLoop env label (page+1) fuel
            (rest.1, .listIssues label page :: rest.2)

/-- `find_issue_by_seed(headers, repo, seed_uid)`: page through the issue
listing filtered by the label `seed:<uid>`, starting at page 1. -/
def find_issue_by_seed (env : Env) (seed_uid : String) (fuel : Nat) :
    Option (Except HErr (Option Item)) × List Call :=
  findLoop env ("seed:" ++ seed_uid) 1 fuel

/-- One input spreadsheet row after `df.fillna("")`: every consumed column as
a string (missing columns were normalised to `""` by `main`). -/
structure Row where
  semana : String
  squad : String
  papel : String
  ia : String
  idAluno : String
  tarefa : String
  issueUID : String
  descricao : String
  entregaveis : String
  criterios : String
  arquivos : String
  comando : String
  branch : String
  revisor : String
  observacoes : String
deriving Repr, DecidableEq

/-- Python's `str.strip()`: remove leading and trailing whitespace. -/
def pyStrip (s : String) : String :=
  ⟨((s.data.dropWhile Char.isWhitespace).reverse.dropWhile Char.isWhitespace).reverse⟩

/-- Python's `str.endswith(suffix)`. -/
def pyEndsWith (s suffix : String) : Bool :=
  suffix.data.reverse.isPrefixOf s.data.reverse

/-- Whether `needle` occurs as a contiguous subsequence of `hay` (Python's
`needle in hay` on strings, on the character lists). -/
def listContainsSub (needle : List Char) : List Char → Bool
  | [] => needle.isEmpty
  | c :: rest => needle.isPrefixOf (c :: rest) || listContainsSub needle rest

/-- The `add` helper of `build_body`: append a rendered field when its value
is non-blank. -/
def addField (h v : String) (parts : List String) : List String :=
  if (pyStrip v) = "" then parts else parts ++ ["**" ++ h ++ ":** " ++ v]

/-- `build_body(row)`: the ordered non-blank fields, then the hidden seed
marker line, joined with newlines. -/
def build_body (row : Row) : String :=
  let parts := []
  let parts := addField "Semana" row.semana parts
  let parts := addField "SQUAD" row.squad parts
  let parts := addField "Papel" row.papel parts
  let parts := addField "Id Aluno" row.idAluno parts
  let parts := addField "IA" row.ia parts
  let parts := addField "Tarefa" row.tarefa parts
  let parts := addField "Descrição" row.descricao parts
  let parts := addField "Entregáveis" row.entregaveis parts
  let parts := addField "Critérios de Aceite" row.criterios parts
  let parts := addField "Arquivos Sugeridos" row.arquivos parts
  let parts := addField "Comando de Verificação" row.comando parts
  let parts := addField "Branch Sugerida" row.branch parts
  let parts := addField "Revisor" row.revisor parts
  let parts := addField "Observações" row.observacoes parts
  let seed_uid := (pyStrip row.issueUID)
  String.intercalate "\n" (parts ++ ["\n<!-- seed_id:" ++ seed_uid ++ " -->"])

/-- The dynamic label candidates of a row, in source order: category labels
from the trimmed cell values, then the seed label. -/
def dynLabels (row : Row) (seed_uid : String) : List (String × String) :=
  [ ("Semana:" ++ (pyStrip row.semana), "7289DA"),
    ("SQUAD:" ++ (pyStrip row.squad), "99AAB5"),
    ("Papel:" ++ (pyStrip row.papel), "FEE75C"),
    ("IA:" ++ (pyStrip row.ia), "FAA61A"),
    ("IdAluno:" ++ (pyStrip row.idAluno), "57F287"),
    ("seed:" ++ seed_uid, "99AAB5") ]

/-- The suppression test of the dynamic-label ensure loop: skip names ending
in `:` (empty value) or in `:nan` / `:NaN` (null placeholder). -/
def suppressedLabel (name : String) : Bool :=
  pyEndsWith name ":" || pyEndsWith name ":nan" || pyEndsWith name ":NaN"

/-- The `for name,color in dyn` loop: skip suppressed names, ensure the rest;
the first HTTPError stops the loop and propagates. -/
def ensureDyn (env : Env) : List (String × String) → Except HErr Unit × List Call
  | [] => (.ok (), [])
  | (n, c) :: rest =>
    if suppressedLabel n then ensureDyn env rest
    else
      match ensure_label env n c none with
      | (.error e, tr) => (.error e, tr)
      | (.ok _, tr) =>
        let r := ensureDyn env rest
        (r.1, tr ++ r.2)

/-- The label list of the create-issue payload: dynamic label names not
ending in `:` (note: this keeps `:nan` / `:NaN` names). -/
def payloadLabels (row : Row) (seed_uid : String) : List String :=
  ((dynLabels row seed_uid).map Prod.fst).filter (fun n => !(pyEndsWith n ":"))

/-- One report record `(status, row, task, issue, reason, error)` of
`seed-report.csv`. -/
structure ReportRow where
  status : String
  row : Nat
  task : String
  issue : String
  reason : String
  error : String
deriving Repr, DecidableEq

/-- The body of the per-row loop of `main` for the row at 0-based position
`idx`: skip invalid rows without any call; ensure dynamic labels; look up
the seed; report `exists`, `dry-run`, `created` or `error`.  `(none, tr)`
means lookup fuel ran out; `(some (.error e), tr)` models an uncaught
exception escaping the row (only the create call is inside `try`). -/
def processRow (env : Env) (dryRun : Bool) (fuel idx : Nat) (row : Row) :
    Option (Except HErr ReportRow) × List Call :=
  let seed_uid := (pyStrip row.issueUID)
  let titulo := (pyStrip row.tarefa)
  if seed_uid = "" ∨ titulo = "" then
    (some (.ok ⟨"skip", idx+1, titulo, "", "missing uid/title", ""⟩), [])
  else
    match ensureDyn env (dynLabels row seed_uid) with
    | (.error e, tr) => (some (.error e), tr)
    | (.ok _, tr) =>
      match find_issue_by_seed env seed_uid fuel with
      | (none, tr2) => (none, tr ++ tr2)
      | (some (.error e), tr2) => (some (.error e), tr ++ tr2)
      | (some (.ok (some it)), tr2) =>
        (some (.ok ⟨"exists", idx+1, titulo, it.html_url, "seed:" ++ seed_uid, ""⟩),
         tr ++ tr2)
      | (some (.ok none), tr2) =>
        let body := build_body row
        let pl := payloadLabels row seed_uid
        if dryRun then
          (some (.ok ⟨"dry-run", idx+1, titulo, "", "", ""⟩), tr ++ tr2)
        else
          match env.issuePost titulo body pl with
          | .ok url =>
            (some (.ok ⟨"created", idx+1, titulo, url, "seed:" ++ seed_uid, ""⟩),
             tr ++ tr2 ++ [.createIssue titulo body pl])
          | .error e =>
            (some (.ok ⟨"error", idx+1, titulo, "", "", e.msg⟩),
             tr ++ tr2 ++ [.createIssue titulo body pl])

/-- The per-row loop of `main` over the remaining rows, accumulating report
records; an uncaught exception or fuel exhaustion aborts the loop. -/
def runRows (env : Env) (dryRun : Bool) (fuel : Nat) :
    Nat → List Row → Option (Except HErr (List ReportRow)) × List Call
  | _, [] => (some (.ok []), [])
  | idx, row :: rest =>
    match processRow env dryRun fuel idx row with
    | (none, tr) => (none, tr)
    | (some (.error e), tr) => (some (.error e), tr)
    | (some (.ok rec), tr) =>
      match runRows env dryRun fuel (idx+1) rest with
      | (none, tr2) => (none, tr ++ tr2)
      | (some (.error e), tr2) => (some (.error e), tr ++ tr2)
      | (some (.ok recs), tr2) => (some (.ok (rec :: recs)), tr ++ tr2)

/-- The two fixed base labels ensured before the row loop. -/
def base_labels : List (String × String × String) :=
  [ ("Tipo:feature", "3BA55D", "Tarefas de implementação"),
    ("Tipo:bug", "ED4245", "Correções") ]

/-- The base-label loop of `main`: ensure each `(name, color, desc)` in order;
the first HTTPError propagates. -/
def ensureBase (env : Env) : List (String × String × String) → Except HErr Unit × List Call
  | [] => (.ok (), [])
  | (n, c, d) :: rest =>
    match ensure_label env n c (some d) with
    | (.error e, tr) => (.error e, tr)
    | (.ok _, tr) =>
      let r := ensureBase env rest
      (r.1, tr ++ r.2)

/-- `main` after startup validation and spreadsheet loading: ensure the base
labels, then process every row; `some (.ok recs)` is the run that completes
and writes `recs` as `seed-report.csv`. -/
def mainRun (env : Env) (dryRun : Bool) (fuel : Nat) (rows : List Row) :
    Option (Except HErr (List ReportRow)) × List Call :=
  match ensureBase env base_labels with
  | (.error e, tr) => (some (.error e), tr)
  | (.ok _, tr) =>
    let r := runRows env dryRun fuel 0 rows
    (r.1, tr ++ r.2)

/-- One raw HTTP response as `gh` sees it: status code and body text. -/
structure GhResp where
  status : Nat
  text : String
deriving Repr, DecidableEq

/-- `r.raise_for_status()`: raise `HTTPError` exactly on status `≥ 400`. -/
def raise_for_status (r : GhResp) : Except HErr GhResp :=
  if 400 ≤ r.status then .error ⟨r.status, "HTTP " ++ toString r.status⟩ else .ok r

/-- Python's `"rate limit" in s.lower()`. -/
def mentionsRateLimit (s : String) : Bool :=
  listContainsSub "rate limit".data (s.data.map Char.toLower)

/-- The retry test of `gh`: status 403 and a body mentioning the rate limit. -/
def isRateLimited (r : GhResp) : Bool :=
  r.status == 403 && mentionsRateLimit r.text

/-- `gh(headers, method, path, ...)` given the server's first and (potential)
second responses: retry once after a rate-limited 403, then
`raise_for_status`.  Also returns how many requests were sent. -/
def gh (r1 r2 : GhResp) : Except HErr GhResp × Nat :=
  if isRateLimited r1 then (raise_for_status r2, 2) else (raise_for_status r1, 1)

/-- The items of one listing page as the loop's per-item scan sees them
(`[]` when the page request itself fails). -/
def pageItems (env : Env) (label : String) (page : Nat) : List Item :=
  match env.issuesList label page with
  | .ok items => items
  | .error _ => []

/-- The listed entries visited when scanning `n` consecutive pages starting
at `page`, in traversal order. -/
def visitedItems (env : Env) (label : String) : Nat → Nat → List Item
  | _, 0 => []
  | page, n+1 => pageItems env label page ++ visitedItems env label (page+1) n

/-- The label name of a call when it is a label existence check. -/
def callGetName : Call → Option String
  | .getLabel n => some n
  | _ => none

/-- The names of the label existence checks (`GET /labels/{name}`) occurring
in a trace, in order. -/
def labelGetNames (tr : List Call) : List String :=
  tr.filterMap callGetName

/-- Whether the paging loop stops requesting further pages at `page`: the
page request fails, or the page holds fewer than `per_page` items (which
includes the empty page). -/
def stopsPaging (env : Env) (label : String) (page : Nat) : Bool :=
  match env.issuesList label page with
  | .error _ => true
  | .ok items => items.length < per_page

/-- Fixture: an oracle on which every endpoint succeeds and every issue
listing is empty. -/
def envOk : Env where
  labelGet _ := .ok ()
  labelPost _ _ _ := .ok ()
  issuesList _ _ := .ok []
  issuePost _ _ _ := .ok "http://u"

/-- Fixture: a valid row with seed id `W1`. -/
def rowA : Row :=
  ⟨"1", "A", "P", "S", "Z", "T", "W1", "", "", "", "", "", "", "", ""⟩

/-- Fixture: a second valid row with seed id `W2`. -/
def rowB : Row :=
  ⟨"2", "B", "Q", "S", "Y", "U", "W2", "", "", "", "", "", "", "", ""⟩

/-- Fixture: a valid row whose `IA` cell holds the null placeholder `nan`. -/
def rowNan : Row :=
  ⟨"1", "A", "P", "nan", "Z", "T", "W1", "", "", "", "", "", "", "", ""⟩

/-- Fixture: a row with a blank seed id (and blank everything else). -/
def rowSkip : Row :=
  ⟨"", "", "", "", "", "", "", "", "", "", "", "", "", "", ""⟩

/-- Fixture: a valid row whose week cell is `9`. -/
def rowC : Row :=
  ⟨"9", "A", "P", "S", "Z", "T", "W3", "", "", "", "", "", "", "", ""⟩

/-- Fixture: an issue already carrying the seed label `seed:W1`. -/
def itemA : Item := ⟨false, ["seed:W1"], "http://issue/1"⟩

/-- Fixture: an oracle whose issue listing returns `itemA` on every page. -/
def envFound : Env where
  labelGet _ := .ok ()
  labelPost _ _ _ := .ok ()
  issuesList _ _ := .ok [itemA]
  issuePost _ _ _ := .ok "http://u"

/-- Fixture: an oracle on which every issue-listing request fails with a
403 HTTPError (e.g. a rate limit hit twice in a row inside `gh`). -/
def envListErr : Env where
  labelGet _ := .ok ()
  labelPost _ _ _ := .ok ()
  issuesList _ _ := .error ⟨403, "HTTP 403"⟩
  issuePost _ _ _ := .ok "http://u"

/-- Fixture: an oracle on which the existence check of the label `Semana:9`
fails with a 500 HTTPError and everything else succeeds. -/
def envC3 : Env where
  labelGet n := if n = "Semana:9" then .error ⟨500, "HTTP 500"⟩ else .ok ()
  labelPost _ _ _ := .ok ()
  issuesList _ _ := .ok []
  issuePost _ _ _ := .ok "http://u"

/-- Fixture: an oracle on which the label `Semana:1` does not exist yet
(its existence check 404s) and everything else succeeds. -/
def envC6 : Env where
  labelGet n := if n = "Semana:1" then .error ⟨404, "Not Found"⟩ else .ok ()
  labelPost _ _ _ := .ok ()
  issuesList _ _ := .ok []
  issuePost _ _ _ := .ok "http://u"

/-- Fixture: an oracle on which no label exists yet (every existence check
404s) and label creation succeeds. -/
def env404 : Env where
  labelGet _ := .error ⟨404, "Not Found"⟩
  labelPost _ _ _ := .ok ()
  issuesList _ _ := .ok []
  issuePost _ _ _ := .ok "http://u"

/-- Fixture: an oracle on which issue creation fails with a 500 HTTPError
and everything else succeeds. -/
def envPostErr : Env where
  labelGet _ := .ok ()
  labelPost _ _ _ := .ok ()
  issuesList _ _ := .ok []
  issuePost _ _ _ := .error ⟨500, "HTTP 500"⟩

/-- Fixture: the report of running `envOk` over `[rowA, rowB]`. -/
def recsAB : List ReportRow :=
  [ ⟨"created", 1, "T", "http://u", "seed:W1", ""⟩,
    ⟨"created", 2, "U", "http://u", "seed:W2", ""⟩ ]

/-- A listing request is not an issue creation. -/
theorem isListIssues_not_createIssue (x : Call) (h : x.isListIssues = true) :
    x.isCreateIssue = false := by
  cases x <;> first | rfl | exact Bool.noConfusion h

/-- A listing request is not a label existence check. -/
theorem isListIssues_getName_none (x : Call) (h : x.isListIssues = true) :
    callGetName x = none := by
  cases x <;> first | rfl | exact Bool.noConfusion h

/-- `ensure_label` issues no issue-creation call. -/
theorem ensure_label_not_createIssue (env : Env) (n c : String) (d : Option String) :
    ∀ x ∈ (ensure_label env n c d).2, x.isCreateIssue = false := by
  intro x hx
  unfold ensure_label at hx
  split at hx
  · simp only [List.mem_singleton] at hx
    subst hx; rfl
  · split at hx
    · simp only [List.mem_cons, List.mem_singleton, List.not_mem_nil, or_false] at hx
      rcases hx with h | h <;> (subst h; rfl)
    · simp only [List.mem_singleton] at hx
      subst hx; rfl

/-- The existence checks issued by a single `ensure_label` are exactly one
check for its own label name. -/
theorem ensure_label_getNames (env : Env) (n c : String) (d : Option String) :
    labelGetNames (ensure_label env n c d).2 = [n] := by
  unfold ensure_label
  split
  · rfl
  · split <;> rfl

/-- The existence check for a label's own name is always among the calls of
`ensure_label` for it. -/
theorem ensure_label_mem_getLabel (env : Env) (n c : String) (d : Option String) :
    Call.getLabel n ∈ (ensure_label env n c d).2 := by
  unfold ensure_label
  split
  · exact List.mem_singleton_self _
  · split
    · exact List.mem_cons_self _ _
    · exact List.mem_singleton_self _

/-- When the existence check 404s, `ensure_label` issues the creation call. -/
theorem ensure_label_mem_createLabel (env : Env) (n c : String) (d : Option String)
    (e : HErr) (hg : env.labelGet n = .error e) (h4 : e.code = 404) :
    Call.createLabel n c (descPayload d) ∈ (ensure_label env n c d).2 := by
  unfold ensure_label
  rw [hg]
  simp [h4]

/-- The dynamic-label ensure loop issues no issue-creation call. -/
theorem ensureDyn_not_createIssue (env : Env) :
    ∀ l, ∀ x ∈ (ensureDyn env l).2, x.isCreateIssue = false := by
  intro l
  induction l with
  | nil => intro x hx; simp [ensureDyn] at hx
  | cons p rest ih =>
    obtain ⟨n, c⟩ := p
    intro x hx
    unfold ensureDyn at hx
    split at hx
    · exact ih x hx
    · split at hx
      · rename_i e tr heq
        exact ensure_label_not_createIssue env n c none x (by rw [heq]; exact hx)
      · rename_i u tr heq
        simp only [List.mem_append] at hx
        rcases hx with h | h
        · exact ensure_label_not_createIssue env n c none x (by rw [heq]; exact h)
        · exact ih x h

/-- The base-label ensure loop issues no issue-creation call. -/
theorem ensureBase_not_createIssue (env : Env) :
    ∀ l, ∀ x ∈ (ensureBase env l).2, x.isCreateIssue = false := by
  intro l
  induction l with
  | nil => intro x hx; simp [ensureBase] at hx
  | cons p rest ih =>
    obtain ⟨n, c, d⟩ := p
    intro x hx
    unfold ensureBase at hx
    split at hx
    · rename_i e tr heq
      exact ensure_label_not_createIssue env n c (some d) x (by rw [heq]; exact hx)
    · rename_i u tr heq
      simp only [List.mem_append] at hx
      rcases hx with h | h
      · exact ensure_label_not_createIssue env n c (some d) x (by rw [heq]; exact h)
      · exact ih x h

/-- Every call made by the paging loop is a listing request. -/
theorem findLoop_isListIssues (env : Env) (label : String) :
    ∀ fuel page, ∀ x ∈ (findLoop env label page fuel).2, x.isListIssues = true := by
  intro fuel
  induction fuel with
  | zero => intro page x hx; simp [findLoop] at hx
  | succ n ih =>
    intro page x hx
    unfold findLoop at hx
    split at hx
    · simp only [List.mem_singleton] at hx; subst hx; rfl
    · split at hx
      · simp only [List.mem_singleton] at hx; subst hx; rfl
      · split at hx
        · simp only [List.mem_singleton] at hx; subst hx; rfl
        · split at hx
          · simp only [List.mem_singleton] at hx; subst hx; rfl
          · simp only [List.mem_cons] at hx
            rcases hx with h | h
            · subst h; rfl
            · exact ih (page+1) x h

/-- The paging loop makes no label existence check. -/
theorem findLoop_getNames (env : Env) (label : String) (fuel page : Nat) :
    labelGetNames (findLoop env label page fuel).2 = [] := by
  rw [labelGetNames, List.filterMap_eq_nil_iff]
  intro x hx
  exact isListIssues_getName_none x (findLoop_isListIssues env label fuel page x hx)

/-- `labelGetNames` distributes over trace concatenation. -/
theorem labelGetNames_append (t1 t2 : List Call) :
    labelGetNames (t1 ++ t2) = labelGetNames t1 ++ labelGetNames t2 :=
  List.filterMap_append t1 t2 callGetName

/-- When the dynamic-label loop completes without an exception, the label
existence checks it issued are exactly the non-suppressed candidate names,
in order. -/
theorem ensureDyn_ok_getNames (env : Env) :
    ∀ l, (ensureDyn env l).1 = .ok () →
      labelGetNames (ensureDyn env l).2 =
        (l.filter fun p => !(suppressedLabel p.1)).map Prod.fst := by
  intro l
  induction l with
  | nil => intro _; rfl
  | cons p rest ih =>
    obtain ⟨n, c⟩ := p
    intro h
    unfold ensureDyn at h ⊢
    by_cases hs : suppressedLabel n
    · rw [if_pos hs] at h ⊢
      rw [ih h, List.filter_cons]
      simp [hs]
    · rw [if_neg hs] at h ⊢
      rcases heq : ensure_label env n c none with ⟨res, tr⟩
      cases res with
      | error e => simp [heq] at h
      | ok u =>
        simp only [heq] at h ⊢
        have hn : labelGetNames tr = [n] := by
          have h2 := ensure_label_getNames env n c none
          rw [heq] at h2
          exact h2
        rw [labelGetNames_append, hn, ih h, List.filter_cons]
        simp [hs]

/-- The trace of the paging loop holds at most `fuel` calls. -/
theorem findLoop_calls_le (env : Env) (label : String) :
    ∀ fuel page, (findLoop env label page fuel).2.length ≤ fuel := by
  intro fuel
  induction fuel with
  | zero => intro page; simp [findLoop]
  | succ n ih =>
    intro page
    unfold findLoop
    split
    · simp
    · split
      · simp
      · split
        · simp
        · split
          · simp
          · simpa using Nat.succ_le_succ (ih (page+1))

/-- If the paging loop returned a value, its first call listed its starting
page. -/
theorem findLoop_some_first_call (env : Env) (label : String) (fuel page : Nat)
    (x : Except HErr (Option Item))
    (h : (findLoop env label page fuel).1 = some x) :
    Call.listIssues label page ∈ (findLoop env label page fuel).2 := by
  cases fuel with
  | zero => exact absurd h (by simp [findLoop])
  | succ n =>
    unfold findLoop
    split
    · exact List.mem_singleton_self _
    · split
      · exact List.mem_singleton_self _
      · split
        · exact List.mem_singleton_self _
        · split
          · exact List.mem_singleton_self _
          · exact List.mem_cons_self _ _

/-- If the paging loop returns a found issue, that issue is the first
matching true issue among all the listed entries it visited. -/
theorem findLoop_found_spec (env : Env) (label : String) :
    ∀ fuel page it, (findLoop env label page fuel).1 = some (.ok (some it)) →
      (visitedItems env label page fuel).find? (isMatch label) = some it := by
  intro fuel
  induction fuel with
  | zero => intro page it h; exact absurd h (by simp [findLoop])
  | succ n ih =>
    intro page it h
    unfold findLoop at h
    unfold visitedItems pageItems
    rcases heq : env.issuesList label page with e | items
    · simp [heq] at h
    · simp only [heq] at h ⊢
      by_cases hemp : items.isEmpty
      · rw [if_pos hemp] at h
        simp at h
      · rw [if_neg hemp] at h
        rcases hfind : items.find? (isMatch label) with _ | it'
        · simp only [hfind] at h
          by_cases hlen : items.length < per_page
          · rw [if_pos hlen] at h
            simp at h
          · rw [if_neg hlen] at h
            simp only at h
            rw [List.find?_append, hfind, Option.none_or]
            exact ih (page+1) it h
        · simp only [hfind, Option.some.injEq, Except.ok.injEq] at h
          rw [List.find?_append, hfind]
          simp [h]

/-- If some page reachable within the fuel is a stopping page, the paging
loop returns a value rather than running out of fuel. -/
theorem findLoop_stops (env : Env) (label : String) :
    ∀ fuel page, (∃ k, k < fuel ∧ stopsPaging env label (page + k) = true) →
      (findLoop env label page fuel).1.isSome = true := by
  intro fuel
  induction fuel with
  | zero =>
    intro page h
    obtain ⟨k, hk, _⟩ := h
    omega
  | succ n ih =>
    intro page h
    obtain ⟨k, hk, hstop⟩ := h
    unfold findLoop
    rcases heq : env.issuesList label page with e | items
    · simp [heq]
    · simp only [heq]
      by_cases hemp : items.isEmpty
      · rw [if_pos hemp]
        rfl
      · rw [if_neg hemp]
        rcases hfind : items.find? (isMatch label) with _ | it'
        · simp only
          by_cases hlen : items.length < per_page
          · rw [if_pos hlen]
            rfl
          · rw [if_neg hlen]
            show (findLoop env label (page+1) n).1.isSome = true
            apply ih (page+1)
            have hk0 : k ≠ 0 := by
              intro h0
              subst h0
              rw [Nat.add_zero] at hstop
              unfold stopsPaging at hstop
              rw [heq] at hstop
              simp at hstop
              exact hlen hstop
            obtain ⟨k', rfl⟩ : ∃ k', k = k' + 1 := ⟨k - 1, by omega⟩
            refine ⟨k', by omega, ?_⟩
            rw [show page + 1 + k' = page + (k' + 1) by omega]
            exact hstop
        · simp only [hfind]
          rfl

/-- Unfolding of `processRow` on a valid row whose dynamic-label ensuring
completed, in terms of the seed-lookup outcome. -/
theorem processRow_valid (env : Env) (dryRun : Bool) (fuel idx : Nat) (row : Row)
    (tr1 : List Call)
    (hu : ¬ (pyStrip row.issueUID) = "") (ht : ¬ (pyStrip row.tarefa) = "")
    (hens : ensureDyn env (dynLabels row (pyStrip row.issueUID)) = (.ok (), tr1)) :
    processRow env dryRun fuel idx row =
      match find_issue_by_seed env (pyStrip row.issueUID) fuel with
      | (none, tr2) => (none, tr1 ++ tr2)
      | (some (.error e), tr2) => (some (.error e), tr1 ++ tr2)
      | (some (.ok (some it)), tr2) =>
        (some (.ok ⟨"exists", idx+1, (pyStrip row.tarefa), it.html_url,
                    "seed:" ++ (pyStrip row.issueUID), ""⟩), tr1 ++ tr2)
      | (some (.ok none), tr2) =>
        if dryRun then
          (some (.ok ⟨"dry-run", idx+1, (pyStrip row.tarefa), "", "", ""⟩), tr1 ++ tr2)
        else
          match env.issuePost (pyStrip row.tarefa) (build_body row)
              (payloadLabels row (pyStrip row.issueUID)) with
          | .ok url =>
            (some (.ok ⟨"created", idx+1, (pyStrip row.tarefa), url,
                        "seed:" ++ (pyStrip row.issueUID), ""⟩),
             tr1 ++ tr2 ++ [.createIssue (pyStrip row.tarefa) (build_body row)
                              (payloadLabels row (pyStrip row.issueUID))])
          | .error e =>
            (some (.ok ⟨"error", idx+1, (pyStrip row.tarefa), "", "", e.msg⟩),
             tr1 ++ tr2 ++ [.createIssue (pyStrip row.tarefa) (build_body row)
                              (payloadLabels row (pyStrip row.issueUID))]) := by
  unfold processRow
  rw [if_neg (not_or.mpr ⟨hu, ht⟩)]
  simp only [hens]

/-- When the row loop finishes normally, it emits exactly one record per
remaining row. -/
theorem runRows_ok_length (env : Env) (dryRun : Bool) (fuel : Nat) :
    ∀ rows idx recs, (runRows env dryRun fuel idx rows).1 = some (.ok recs) →
      recs.length = rows.length := by
  intro rows
  induction rows with
  | nil =>
    intro idx recs h
    simp only [runRows, Option.some.injEq, Except.ok.injEq] at h
    rw [← h]
    rfl
  | cons row rest ih =>
    intro idx recs h
    unfold runRows at h
    rcases hp : processRow env dryRun fuel idx row with ⟨res, tr⟩
    simp only [hp] at h
    match res with
    | none => simp at h
    | some (.error e) => simp at h
    | some (.ok rec) =>
      simp only at h
      rcases hr : runRows env dryRun fuel (idx+1) rest with ⟨res2, tr2⟩
      simp only [hr] at h
      match res2 with
      | none => simp at h
      | some (.error e) => simp at h
      | some (.ok recs2) =>
        simp only [Option.some.injEq, Except.ok.injEq] at h
        have h2 : recs2.length = rest.length := by
          apply ih (idx+1)
          rw [hr]
        rw [← h]
        simp [h2]

/-- A row whose record was produced never aborts the loop: its record is
followed by whatever the loop produces for the remaining rows. -/
theorem runRows_cons_ok (env : Env) (dryRun : Bool) (fuel idx : Nat)
    (row : Row) (rest : List Row) (rec : ReportRow) (recs : List ReportRow)
    (hp : (processRow env dryRun fuel idx row).1 = some (.ok rec))
    (hr : (runRows env dryRun fuel (idx+1) rest).1 = some (.ok recs)) :
    (runRows env dryRun fuel idx (row :: rest)).1 = some (.ok (rec :: recs)) := by
  unfold runRows
  rcases hp2 : processRow env dryRun fuel idx row with ⟨res, tr⟩
  rw [hp2] at hp
  simp only at hp
  subst hp
  rcases hr2 : runRows env dryRun fuel (idx+1) rest with ⟨res2, tr2⟩
  rw [hr2] at hr
  simp only at hr
  subst hr
  simp only [hp2, hr2]

/-- With the dry-run flag set, processing a row issues no issue-creation
call, on every path through the row. -/
theorem processRow_dryRun_no_create (env : Env) (fuel idx : Nat) (row : Row) :
    ∀ x ∈ (processRow env true fuel idx row).2, x.isCreateIssue = false := by
  intro x hx
  unfold processRow at hx
  split at hx
  · simp only [] at hx
    split at hx
    · simp at hx
    · split at hx
      · rename_i e tr heq
        exact ensureDyn_not_createIssue env _ x (by rw [heq]; exact hx)
      · rename_i u tr heq
        split at hx
        · rename_i tr2 heq2
          simp only [List.mem_append] at hx
          rcases hx with h | h
          · exact ensureDyn_not_createIssue env _ x (by rw [heq]; exact h)
          · refine isListIssues_not_createIssue x ?_
            have h2 : (find_issue_by_seed env (pyStrip row.issueUID) fuel).2 = tr2 := by
              rw [heq2]
            rw [find_issue_by_seed] at h2
            rw [← h2] at h
            exact findLoop_isListIssues env _ fuel 1 x h
        · rename_i e tr2 heq2
          simp only [List.mem_append] at hx
          rcases hx with h | h
          · exact ensureDyn_not_createIssue env _ x (by rw [heq]; exact h)
          · refine isListIssues_not_createIssue x ?_
            have h2 : (find_issue_by_seed env (pyStrip row.issueUID) fuel).2 = tr2 := by
              rw [heq2]
            rw [find_issue_by_seed] at h2
            rw [← h2] at h
            exact findLoop_isListIssues env _ fuel 1 x h
        · rename_i it tr2 heq2
          simp only [List.mem_append] at hx
          rcases hx with h | h
          · exact ensureDyn_not_createIssue env _ x (by rw [heq]; exact h)
          · refine isListIssues_not_createIssue x ?_
            have h2 : (find_issue_by_seed env (pyStrip row.issueUID) fuel).2 = tr2 := by
              rw [heq2]
            rw [find_issue_by_seed] at h2
            rw [← h2] at h
            exact findLoop_isListIssues env _ fuel 1 x h
        · rename_i tr2 heq2
          simp only [List.mem_append] at hx
          rcases hx with h | h
          · exact ensureDyn_not_createIssue env _ x (by rw [heq]; exact h)
          · refine isListIssues_not_createIssue x ?_
            have h2 : (find_issue_by_seed env (pyStrip row.issueUID) fuel).2 = tr2 := by
              rw [heq2]
            rw [find_issue_by_seed] at h2
            rw [← h2] at h
            exact findLoop_isListIssues env _ fuel 1 x h
  · rename_i hcon
    exact absurd rfl hcon

/-- With the dry-run flag set, the whole row loop issues no issue-creation
call. -/
theorem runRows_dryRun_no_create (env : Env) (fuel : Nat) :
    ∀ rows idx, ∀ x ∈ (runRows env true fuel idx rows).2, x.isCreateIssue = false := by
  intro rows
  induction rows with
  | nil => intro idx x hx; simp [runRows] at hx
  | cons row rest ih =>
    intro idx x hx
    unfold runRows at hx
    split at hx
    · rename_i tr heq
      exact processRow_dryRun_no_create env fuel idx row x (by rw [heq]; exact hx)
    · rename_i e tr heq
      exact processRow_dryRun_no_create env fuel idx row x (by rw [heq]; exact hx)
    · rename_i rec tr heq
      split at hx
      · rename_i tr2 heq2
        simp only [List.mem_append] at hx
        rcases hx with h | h
        · exact processRow_dryRun_no_create env fuel idx row x (by rw [heq]; exact h)
        · exact ih (idx+1) x (by rw [heq2]; exact h)
      · rename_i e tr2 heq2
        simp only [List.mem_append] at hx
        rcases hx with h | h
        · exact processRow_dryRun_no_create env fuel idx row x (by rw [heq]; exact h)
        · exact ih (idx+1) x (by rw [heq2]; exact h)
      · rename_i recs tr2 heq2
        simp only [List.mem_append] at hx
        rcases hx with h | h
        · exact processRow_dryRun_no_create env fuel idx row x (by rw [heq]; exact h)
        · exact ih (idx+1) x (by rw [heq2]; exact h)

/-- The run's trace opens with exactly the base-label ensuring trace: the
base labels are handled before any input row. -/
theorem mainRun_trace_take (env : Env) (dryRun : Bool) (fuel : Nat) (rows : List Row) :
    (mainRun env dryRun fuel rows).2.take (ensureBase env base_labels).2.length =
      (ensureBase env base_labels).2 := by
  unfold mainRun
  rcases hb : ensureBase env base_labels with ⟨res, tr⟩
  simp only [hb]
  cases res with
  | error e => exact List.take_length tr
  | ok u => exact List.take_left tr _

/-- Every call of the base-label ensuring happens on the run. -/
theorem mainRun_mem_of_base (env : Env) (dryRun : Bool) (fuel : Nat)
    (rows : List Row) (x : Call) (hx : x ∈ (ensureBase env base_labels).2) :
    x ∈ (mainRun env dryRun fuel rows).2 := by
  unfold mainRun
  rcases hb : ensureBase env base_labels with ⟨res, tr⟩
  rw [hb] at hx
  simp only at hx
  simp only [hb]
  cases res with
  | error e => exact hx
  | ok u => exact List.mem_append_left _ hx

/-- Calls of the head ensure of the base-label loop happen in its trace. -/
theorem ensureBase_cons_mem_tr (env : Env) (n c d : String)
    (rest : List (String × String × String)) (x : Call)
    (hx : x ∈ (ensure_label env n c (some d)).2) :
    x ∈ (ensureBase env ((n, c, d) :: rest)).2 := by
  unfold ensureBase
  rcases heq : ensure_label env n c (some d) with ⟨res, tr⟩
  rw [heq] at hx
  simp only at hx
  cases res with
  | error e => simpa using hx
  | ok u => exact List.mem_append_left _ hx

/-- Calls of the tail of the base-label loop happen in its trace, provided
the head ensure succeeded. -/
theorem ensureBase_cons_mem_rest (env : Env) (n c d : String)
    (rest : List (String × String × String)) (x : Call)
    (hok : (ensure_label env n c (some d)).1 = .ok ())
    (hx : x ∈ (ensureBase env rest).2) :
    x ∈ (ensureBase env ((n, c, d) :: rest)).2 := by
  unfold ensureBase
  rcases heq : ensure_label env n c (some d) with ⟨res, tr⟩
  rw [heq] at hok
  simp only at hok
  subst hok
  simp only [heq]
  exact List.mem_append_right _ hx

/-- With the dry-run flag set, the whole run issues no issue-creation call. -/
theorem mainRun_dryRun_no_create (env : Env) (fuel : Nat) (rows : List Row) :
    ∀ x ∈ (mainRun env true fuel rows).2, x.isCreateIssue = false := by
  intro x hx
  unfold mainRun at hx
  split at hx
  · rename_i e tr heq
    exact ensureBase_not_createIssue env _ x (by rw [heq]; exact hx)
  · rename_i u tr heq
    simp only [List.mem_append] at hx
    rcases hx with h | h
    · exact ensureBase_not_createIssue env _ x (by rw [heq]; exact h)
    · exact runRows_dryRun_no_create env fuel rows 0 x h

/-- Claim C1: on a valid row (non-blank trimmed seed id and title) whose
dynamic-label ensuring completed and whose seed lookup finds an existing
issue, the record is `exists`, carries that issue's URL and the seed label
`seed:<seedId>` as the reason, and no create-issue call is made for the
row — re-running over an already-seeded spreadsheet creates nothing. -/
theorem claim_C1 (env : Env) (dryRun : Bool) (fuel idx : Nat) (row : Row)
    (tr1 : List Call) (it : Item)
    (hu : ¬ (pyStrip row.issueUID) = "") (ht : ¬ (pyStrip row.tarefa) = "")
    (hens : ensureDyn env (dynLabels row (pyStrip row.issueUID)) = (.ok (), tr1))
    (hfind : (find_issue_by_seed env (pyStrip row.issueUID) fuel).1 =
      some (.ok (some it))) :
    (processRow env dryRun fuel idx row).1 =
      some (.ok ⟨"exists", idx+1, pyStrip row.tarefa, it.html_url,
                 "seed:" ++ pyStrip row.issueUID, ""⟩) ∧
    ∀ x ∈ (processRow env dryRun fuel idx row).2, x.isCreateIssue = false := by
  have hpr := processRow_valid env dryRun fuel idx row tr1 hu ht hens
  rcases hF : find_issue_by_seed env (pyStrip row.issueUID) fuel with ⟨res2, tr2⟩
  rw [hF] at hfind hpr
  simp only [] at hfind
  subst hfind
  simp only [] at hpr
  constructor
  · rw [hpr]
  · intro x hx
    rw [hpr] at hx
    simp only [List.mem_append] at hx
    rcases hx with h | h
    · exact ensureDyn_not_createIssue env _ x (by rw [hens]; exact h)
    · have h2 : (find_issue_by_seed env (pyStrip row.issueUID) fuel).2 = tr2 := by
        rw [hF]
      rw [find_issue_by_seed] at h2
      rw [← h2] at h
      exact isListIssues_not_createIssue x (findLoop_isListIssues env _ fuel 1 x h)

/-- Witness for C1: on an oracle whose listing already holds the issue for
seed `W1`, the concrete row yields the `exists` record and a trace without
any create-issue call. -/
theorem claim_C1_witness :
    (processRow envFound false 3 0 rowA).1 =
      some (.ok ⟨"exists", 1, "T", "http://issue/1", "seed:W1", ""⟩) ∧
    ((processRow envFound false 3 0 rowA).2.all fun x => !x.isCreateIssue) = true := by
  have h := claim_C1 envFound false 3 0 rowA
    [Call.getLabel "Semana:1", Call.getLabel "SQUAD:A", Call.getLabel "Papel:P",
     Call.getLabel "IA:S", Call.getLabel "IdAluno:Z", Call.getLabel "seed:W1"]
    itemA (by decide) (by decide) rfl rfl
  exact ⟨h.1, by decide⟩

/-- Counterexample to claim C2: an exception raised during the seed lookup
of the first valid row (here every listing request fails with a 403
HTTPError) is not caught at the row boundary: the whole batch aborts with
the uncaught exception while a second row was still pending, so no record
with status `error` is produced and the batch does not continue. -/
theorem claim_C2_counterexample :
    (mainRun envListErr false 3 [rowA, rowB]).1 = some (.error ⟨403, "HTTP 403"⟩) := rfl

/-- Claim C2 (amended): only exceptions raised by the create-issue call are
caught at the row boundary; such a failure yields an `error` record whose
error field is the exception's message verbatim, and processing continues
with the remaining rows.  Exceptions raised during label-ensure or seed
lookup are not caught and abort the batch. -/
theorem claim_C2_amended (env : Env) (fuel idx : Nat) (row : Row)
    (rest : List Row) (recs : List ReportRow) (tr1 : List Call) (e : HErr)
    (hu : ¬ (pyStrip row.issueUID) = "") (ht : ¬ (pyStrip row.tarefa) = "")
    (hens : ensureDyn env (dynLabels row (pyStrip row.issueUID)) = (.ok (), tr1))
    (hfind : (find_issue_by_seed env (pyStrip row.issueUID) fuel).1 = some (.ok none))
    (hpost : env.issuePost (pyStrip row.tarefa) (build_body row)
        (payloadLabels row (pyStrip row.issueUID)) = .error e)
    (hrest : (runRows env false fuel (idx+1) rest).1 = some (.ok recs)) :
    (processRow env false fuel idx row).1 =
      some (.ok ⟨"error", idx+1, pyStrip row.tarefa, "", "", e.msg⟩) ∧
    (runRows env false fuel idx (row :: rest)).1 =
      some (.ok (⟨"error", idx+1, pyStrip row.tarefa, "", "", e.msg⟩ :: recs)) := by
  have hpr := processRow_valid env false fuel idx row tr1 hu ht hens
  rcases hF : find_issue_by_seed env (pyStrip row.issueUID) fuel with ⟨res2, tr2⟩
  rw [hF] at hfind hpr
  simp only [] at hfind
  subst hfind
  simp only [Bool.false_eq_true, if_false, hpost] at hpr
  have h1 : (processRow env false fuel idx row).1 =
      some (.ok ⟨"error", idx+1, pyStrip row.tarefa, "", "", e.msg⟩) := by
    rw [hpr]
  exact ⟨h1, runRows_cons_ok env false fuel idx row rest _ recs h1 hrest⟩

/-- Witness for the amended C2: a concrete row whose create call fails with
a 500 HTTPError gets the `error` record carrying the message, and the batch
result still holds one record. -/
theorem claim_C2_amended_witness :
    (processRow envPostErr false 3 0 rowA).1 =
      some (.ok ⟨"error", 1, "T", "", "", "HTTP 500"⟩) ∧
    (runRows envPostErr false 3 0 [rowA]).1 =
      some (.ok [⟨"error", 1, "T", "", "", "HTTP 500"⟩]) :=
  claim_C2_amended envPostErr 3 0 rowA [] []
    [Call.getLabel "Semana:1", Call.getLabel "SQUAD:A", Call.getLabel "Papel:P",
     Call.getLabel "IA:S", Call.getLabel "IdAluno:Z", Call.getLabel "seed:W1"]
    ⟨500, "HTTP 500"⟩ (by decide) (by decide) rfl rfl rfl rfl

/-- Counterexample to claim C3: a run that passes startup validation but
whose label-ensure raises a 500 HTTPError on the first row aborts with the
uncaught exception — no report is produced at all, although the input held
one row, so the written report does not have one record per input row. -/
theorem claim_C3_counterexample :
    (mainRun envC3 false 3 [rowC]).1 = some (.error ⟨500, "HTTP 500"⟩) := rfl

/-- Claim C3 (amended): whenever the run completes and writes the report —
that is, no uncaught label-ensure or lookup exception aborted the batch —
the report holds exactly one record per input row. -/
theorem claim_C3_amended (env : Env) (dryRun : Bool) (fuel : Nat)
    (rows : List Row) (recs : List ReportRow)
    (h : (mainRun env dryRun fuel rows).1 = some (.ok recs)) :
    recs.length = rows.length := by
  unfold mainRun at h
  split at h
  · simp at h
  · simp only [] at h
    exact runRows_ok_length env dryRun fuel rows 0 recs h

/-- Witness for the amended C3: a completed two-row run yields a two-record
report. -/
theorem claim_C3_amended_witness : recsAB.length = [rowA, rowB].length :=
  claim_C3_amended envOk false 3 [rowA, rowB] recsAB rfl

/-- Claim C4: a row whose trimmed seed id or title is blank yields the
`skip` record with reason "missing uid/title" and an empty trace — no
network call of any kind is made for it. -/
theorem claim_C4 (env : Env) (dryRun : Bool) (fuel idx : Nat) (row : Row)
    (h : (pyStrip row.issueUID) = "" ∨ (pyStrip row.tarefa) = "") :
    processRow env dryRun fuel idx row =
      (some (.ok ⟨"skip", idx+1, pyStrip row.tarefa, "", "missing uid/title", ""⟩),
       []) := by
  unfold processRow
  rw [if_pos h]

/-- Witness for C4: the concrete blank row is skipped with an empty trace. -/
theorem claim_C4_witness :
    processRow envOk false 3 0 rowSkip =
      (some (.ok ⟨"skip", 1, "", "", "missing uid/title", ""⟩), []) :=
  claim_C4 envOk false 3 0 rowSkip (Or.inl (by decide))

/-- Counterexample to claim C5: on a row whose `IA` cell holds the null
placeholder `nan`, the label `IA:nan` is (correctly) never ensured, but it
is not omitted from the create-issue payload: the creation call submits it
in its label list, so a suppressed label is submitted for creation. -/
theorem claim_C5_counterexample :
    Call.createIssue "T" (build_body rowNan)
        ["Semana:1", "SQUAD:A", "Papel:P", "IA:nan", "IdAluno:Z", "seed:W1"]
      ∈ (processRow envOk false 3 0 rowNan).2 ∧
    Call.getLabel "IA:nan" ∉ (processRow envOk false 3 0 rowNan).2 := by
  constructor
  · decide
  · decide

/-- Claim C5 (amended): dynamic labels with empty values (names ending in
`:`) are omitted from both the ensure calls and the create payload, and
null-placeholder names (ending `:nan`/`:NaN`) are omitted from the ensure
calls only: the create-issue call submits exactly the dynamic names not
ending in `:`. -/
theorem claim_C5_amended (env : Env) (fuel idx : Nat) (row : Row)
    (tr1 : List Call) (url : String)
    (hu : ¬ (pyStrip row.issueUID) = "") (ht : ¬ (pyStrip row.tarefa) = "")
    (hens : ensureDyn env (dynLabels row (pyStrip row.issueUID)) = (.ok (), tr1))
    (hfind : (find_issue_by_seed env (pyStrip row.issueUID) fuel).1 = some (.ok none))
    (hpost : env.issuePost (pyStrip row.tarefa) (build_body row)
        (payloadLabels row (pyStrip row.issueUID)) = .ok url) :
    labelGetNames (processRow env false fuel idx row).2 =
      ((dynLabels row (pyStrip row.issueUID)).filter
        fun p => !(suppressedLabel p.1)).map Prod.fst ∧
    Call.createIssue (pyStrip row.tarefa) (build_body row)
        (((dynLabels row (pyStrip row.issueUID)).map Prod.fst).filter
          fun n => !(pyEndsWith n ":"))
      ∈ (processRow env false fuel idx row).2 := by
  have hpr := processRow_valid env false fuel idx row tr1 hu ht hens
  rcases hF : find_issue_by_seed env (pyStrip row.issueUID) fuel with ⟨res2, tr2⟩
  rw [hF] at hfind hpr
  simp only [] at hfind
  subst hfind
  simp only [Bool.false_eq_true, if_false, hpost] at hpr
  constructor
  · rw [hpr]
    simp only [labelGetNames_append]
    have h1 : labelGetNames tr1 =
        ((dynLabels row (pyStrip row.issueUID)).filter
          fun p => !(suppressedLabel p.1)).map Prod.fst := by
      have h2 := ensureDyn_ok_getNames env (dynLabels row (pyStrip row.issueUID))
        (by rw [hens])
      rw [hens] at h2
      exact h2
    have h3 : (find_issue_by_seed env (pyStrip row.issueUID) fuel).2 = tr2 := by
      rw [hF]
    rw [find_issue_by_seed] at h3
    have h4 : labelGetNames tr2 = [] := by
      rw [← h3]
      exact findLoop_getNames env _ fuel 1
    have h5 : labelGetNames [Call.createIssue (pyStrip row.tarefa) (build_body row)
        (payloadLabels row (pyStrip row.issueUID))] = [] := rfl
    rw [h1, h4, h5]
    simp
  · rw [hpr]
    simp only [List.mem_append]
    right
    exact List.mem_singleton_self _

/-- Witness for the amended C5: on the concrete `nan` row, the ensure calls
check exactly the five non-suppressed labels while the creation call (with
`IA:nan` inside) is in the trace. -/
theorem claim_C5_amended_witness :
    labelGetNames (processRow envOk false 3 0 rowNan).2 =
      ((dynLabels rowNan (pyStrip rowNan.issueUID)).filter
        fun p => !(suppressedLabel p.1)).map Prod.fst ∧
    Call.createIssue (pyStrip rowNan.tarefa) (build_body rowNan)
        (((dynLabels rowNan (pyStrip rowNan.issueUID)).map Prod.fst).filter
          fun n => !(pyEndsWith n ":"))
      ∈ (processRow envOk false 3 0 rowNan).2 :=
  claim_C5_amended envOk 3 0 rowNan
    [Call.getLabel "Semana:1", Call.getLabel "SQUAD:A", Call.getLabel "Papel:P",
     Call.getLabel "IdAluno:Z", Call.getLabel "seed:W1"]
    "http://u" (by decide) (by decide) rfl rfl rfl

/-- Counterexample to claim C6: with the dry-run flag on, processing a valid
row whose label `Semana:1` does not exist yet issues a mutating call — the
label-creation POST — so dry-run does not suppress all mutating calls. -/
theorem claim_C6_counterexample :
    ((processRow envC6 true 3 0 rowA).2.any Call.isMutating) = true ∧
    Call.createLabel "Semana:1" "7289DA" none ∈ (processRow envC6 true 3 0 rowA).2 := by
  constructor
  · decide
  · decide

/-- Claim C6 (amended): with the dry-run flag on, no create-issue call is
made anywhere in the run, and a valid novel row is reported with status
`dry-run`; label-ensure (which may create missing labels) and the seed
lookup still run for it. -/
theorem claim_C6_amended (env : Env) (fuel : Nat) :
    (∀ rows, ∀ x ∈ (mainRun env true fuel rows).2, x.isCreateIssue = false) ∧
    (∀ idx row tr1,
      ¬ (pyStrip row.issueUID) = "" → ¬ (pyStrip row.tarefa) = "" →
      ensureDyn env (dynLabels row (pyStrip row.issueUID)) = (.ok (), tr1) →
      (find_issue_by_seed env (pyStrip row.issueUID) fuel).1 = some (.ok none) →
      (processRow env true fuel idx row).1 =
        some (.ok ⟨"dry-run", idx+1, pyStrip row.tarefa, "", "", ""⟩) ∧
      Call.listIssues ("seed:" ++ pyStrip row.issueUID) 1
        ∈ (processRow env true fuel idx row).2 ∧
      labelGetNames (processRow env true fuel idx row).2 =
        ((dynLabels row (pyStrip row.issueUID)).filter
          fun p => !(suppressedLabel p.1)).map Prod.fst) := by
  constructor
  · intro rows
    exact mainRun_dryRun_no_create env fuel rows
  · intro idx row tr1 hu ht hens hfind
    have hpr := processRow_valid env true fuel idx row tr1 hu ht hens
    have hfirst : Call.listIssues ("seed:" ++ pyStrip row.issueUID) 1
        ∈ (findLoop env ("seed:" ++ pyStrip row.issueUID) 1 fuel).2 := by
      apply findLoop_some_first_call env _ fuel 1 (.ok none)
      rw [find_issue_by_seed] at hfind
      exact hfind
    rcases hF : find_issue_by_seed env (pyStrip row.issueUID) fuel with ⟨res2, tr2⟩
    rw [hF] at hfind hpr
    simp only [] at hfind
    subst hfind
    simp only [if_true] at hpr
    have h3 : (find_issue_by_seed env (pyStrip row.issueUID) fuel).2 = tr2 := by
      rw [hF]
    rw [find_issue_by_seed] at h3
    refine ⟨by rw [hpr], ?_, ?_⟩
    · rw [hpr]
      simp only [List.mem_append]
      right
      rw [← h3]
      exact hfirst
    · rw [hpr]
      rw [labelGetNames_append]
      have h1 : labelGetNames tr1 =
          ((dynLabels row (pyStrip row.issueUID)).filter
            fun p => !(suppressedLabel p.1)).map Prod.fst := by
        have h2 := ensureDyn_ok_getNames env (dynLabels row (pyStrip row.issueUID))
          (by rw [hens])
        rw [hens] at h2
        exact h2
      have h4 : labelGetNames tr2 = [] := by
        rw [← h3]
        exact findLoop_getNames env _ fuel 1
      rw [h1, h4, List.append_nil]

/-- Witness for the amended C6: a concrete dry run creates no issue, reports
the valid novel row as `dry-run`, and still performed the lookup. -/
theorem claim_C6_amended_witness :
    ((mainRun envOk true 3 [rowA]).2.all fun x => !x.isCreateIssue) = true ∧
    (processRow envOk true 3 0 rowA).1 =
      some (.ok ⟨"dry-run", 1, "T", "", "", ""⟩) ∧
    Call.listIssues "seed:W1" 1 ∈ (processRow envOk true 3 0 rowA).2 := by
  have h := claim_C6_amended envOk 3
  have hB := h.2 0 rowA
    [Call.getLabel "Semana:1", Call.getLabel "SQUAD:A", Call.getLabel "Papel:P",
     Call.getLabel "IA:S", Call.getLabel "IdAluno:Z", Call.getLabel "seed:W1"]
    (by decide) (by decide) rfl rfl
  exact ⟨by decide, hB.1, hB.2.1⟩

/-- Claim C7: whatever the pages hold, a found lookup result is never a
pull request, carries the exact seed label, and is the first matching true
issue among the listed entries the paging loop visited. -/
theorem claim_C7 (env : Env) (seed_uid : String) (fuel : Nat) (it : Item)
    (h : (find_issue_by_seed env seed_uid fuel).1 = some (.ok (some it))) :
    it.isPR = false ∧ ("seed:" ++ seed_uid) ∈ it.labels ∧
    (visitedItems env ("seed:" ++ seed_uid) 1 fuel).find?
        (isMatch ("seed:" ++ seed_uid)) = some it := by
  have hspec := findLoop_found_spec env ("seed:" ++ seed_uid) fuel 1 it h
  have hm : isMatch ("seed:" ++ seed_uid) it = true := List.find?_some hspec
  unfold isMatch at hm
  simp only [Bool.and_eq_true, Bool.not_eq_true'] at hm
  refine ⟨hm.1, ?_, hspec⟩
  have h2 := hm.2
  simpa using h2

/-- Witness for C7: on the oracle whose every page lists the seed-labelled
issue, the loop returns it and it is the first match of the visited items. -/
theorem claim_C7_witness :
    itemA.isPR = false ∧ ("seed:" ++ "W1") ∈ itemA.labels ∧
    (visitedItems envFound ("seed:" ++ "W1") 1 3).find?
        (isMatch ("seed:" ++ "W1")) = some itemA :=
  claim_C7 envFound "W1" 3 itemA rfl

/-- Claim C8: if some page `n ≥ 1` of the listing for the seed label stops
the paging (it fails, is empty, or holds fewer than `per_page = 50` items),
the lookup returns a value within `n` page requests: the loop terminates. -/
theorem claim_C8 (env : Env) (seed_uid : String) (n : Nat)
    (h1 : 1 ≤ n) (h2 : stopsPaging env ("seed:" ++ seed_uid) n = true) :
    (find_issue_by_seed env seed_uid n).1.isSome = true ∧
    (find_issue_by_seed env seed_uid n).2.length ≤ n := by
  constructor
  · unfold find_issue_by_seed
    apply findLoop_stops
    refine ⟨n - 1, by omega, ?_⟩
    rw [show 1 + (n - 1) = n by omega]
    exact h2
  · exact findLoop_calls_le env _ n 1

/-- Witness for C8: with an empty first page the lookup returns at once. -/
theorem claim_C8_witness :
    (find_issue_by_seed envOk "W1" 1).1.isSome = true ∧
    (find_issue_by_seed envOk "W1" 1).2.length ≤ 1 :=
  claim_C8 envOk "W1" 1 (by decide) (by decide)

/-- Claim C9: a rate-limited 403 first response causes exactly one retry
(two requests, never more); any other first response is answered with one
request; the call errors exactly when the final response is a non-success,
so a second consecutive rate-limited 403 — or any other failure — is not
retried and surfaces as an error to the caller. -/
theorem claim_C9 (r1 r2 : GhResp) :
    (isRateLimited r1 = true → gh r1 r2 = (raise_for_status r2, 2)) ∧
    (isRateLimited r1 = false → gh r1 r2 = (raise_for_status r1, 1)) ∧
    (gh r1 r2).2 ≤ 2 ∧
    (isRateLimited r1 = true → isRateLimited r2 = true →
      (gh r1 r2).1 = .error ⟨403, "HTTP 403"⟩) ∧
    (∀ r, (gh r1 r2).1 = .ok r → r.status < 400) := by
  refine ⟨?_, ?_, ?_, ?_, ?_⟩
  · intro h
    unfold gh
    rw [if_pos h]
  · intro h
    unfold gh
    rw [if_neg (by simp [h])]
  · unfold gh
    split <;> simp
  · intro h1 h2
    unfold gh
    rw [if_pos h1]
    have hs : r2.status = 403 := by
      unfold isRateLimited at h2
      simp only [Bool.and_eq_true, beq_iff_eq] at h2
      exact h2.1
    simp only []
    unfold raise_for_status
    rw [if_pos (by omega), hs]
    exact rfl
  · intro r h
    unfold gh at h
    split at h <;> (unfold raise_for_status at h; split at h)
    · exact absurd h (by simp)
    · rename_i hle
      simp only [Except.ok.injEq] at h
      subst h
      omega
    · exact absurd h (by simp)
    · rename_i hle
      simp only [Except.ok.injEq] at h
      subst h
      omega

/-- Witness for C9: two consecutive rate-limited 403 responses give exactly
two requests and an error surfaced to the caller. -/
theorem claim_C9_witness :
    (gh ⟨403, "API rate limit exceeded"⟩ ⟨403, "API rate limit exceeded"⟩).1 =
      .error ⟨403, "HTTP 403"⟩ ∧
    (gh ⟨403, "API rate limit exceeded"⟩ ⟨403, "API rate limit exceeded"⟩).2 = 2 := by
  have h := claim_C9 ⟨403, "API rate limit exceeded"⟩ ⟨403, "API rate limit exceeded"⟩
  have hrl : isRateLimited ⟨403, "API rate limit exceeded"⟩ = true := by decide
  refine ⟨h.2.2.2.1 hrl hrl, ?_⟩
  rw [h.1 hrl]

/-- Claim C10: on every run — whatever the dry-run flag and the rows, even
none — the trace opens with the base-label ensuring trace, so the two base
labels are handled before any input row; the existence check for
`Tipo:feature` is always issued, the one for `Tipo:bug` once the first
ensure succeeded, and a creation call is issued for `Tipo:feature` when its
existence check 404s. -/
theorem claim_C10 (env : Env) (dryRun : Bool) (fuel : Nat) (rows : List Row) :
    (mainRun env dryRun fuel rows).2.take (ensureBase env base_labels).2.length =
      (ensureBase env base_labels).2 ∧
    Call.getLabel "Tipo:feature" ∈ (mainRun env dryRun fuel rows).2 ∧
    ((ensure_label env "Tipo:feature" "3BA55D" (some "Tarefas de implementação")).1 =
        .ok () →
      Call.getLabel "Tipo:bug" ∈ (mainRun env dryRun fuel rows).2) ∧
    (∀ e, env.labelGet "Tipo:feature" = .error e → e.code = 404 →
      Call.createLabel "Tipo:feature" "3BA55D" (some "Tarefas de implementação")
        ∈ (mainRun env dryRun fuel rows).2) := by
  refine ⟨mainRun_trace_take env dryRun fuel rows, ?_, ?_, ?_⟩
  · apply mainRun_mem_of_base
    exact ensureBase_cons_mem_tr env _ _ _ _ _ (ensure_label_mem_getLabel env _ _ _)
  · intro hok
    apply mainRun_mem_of_base
    apply ensureBase_cons_mem_rest env _ _ _ _ _ hok
    exact ensureBase_cons_mem_tr env _ _ _ _ _ (ensure_label_mem_getLabel env _ _ _)
  · intro e hg h4
    apply mainRun_mem_of_base
    apply ensureBase_cons_mem_tr
    have hm := ensure_label_mem_createLabel env "Tipo:feature" "3BA55D"
      (some "Tarefas de implementação") e hg h4
    have hd : descPayload (some "Tarefas de implementação") =
        some "Tarefas de implementação" := rfl
    rw [hd] at hm
    exact hm

/-- Witness for C10: on an oracle where no label exists yet, a dry run over
an empty row list still opens with the base ensuring trace, checks
`Tipo:feature`, and creates it. -/
theorem claim_C10_witness :
    (mainRun env404 true 3 []).2.take (ensureBase env404 base_labels).2.length =
      (ensureBase env404 base_labels).2 ∧
    Call.getLabel "Tipo:feature" ∈ (mainRun env404 true 3 []).2 ∧
    Call.createLabel "Tipo:feature" "3BA55D" (some "Tarefas de implementação")
      ∈ (mainRun env404 true 3 []).2 := by
  have h := claim_C10 env404 true 3 []
  exact ⟨h.1, h.2.1, h.2.2.2 ⟨404, "Not Found"⟩ rfl rfl⟩

end SeedIssues
